import Mathlib

/-!
A shallow embedding of `easyad.py` (easyad 0.5.0), a small Active Directory
convenience layer over python-ldap, together with theorems checking its
natural-language specification.

Modelling conventions, used throughout:

* Python `str` values are Lean `String`s; character-level operations
  (`lower`, substring tests, splitting) are modelled on `String.data`
  (`List Char`) so that every definition evaluates by kernel reduction.
* Python `bytes` values are modelled by their decoding behaviour
  (`RawBytes`): either bytes that decode as UTF-8 to a given string, or
  bytes that do not (carrying their base64 rendering, which is all the
  code ever extracts from them).
* Python `datetime` values are modelled as an integer count of 100
  nanosecond ticks since 1601-01-01T00:00:00 (the AD epoch), so the
  datetime produced by `convert_ad_timestamp` equals the epoch plus
  `raw / 10 ** 7` seconds exactly when its tick count equals `raw`.
  `datetime.now()` becomes an explicit `now : ℤ` parameter (same scale).
  `strftime(fmt)` output is modelled abstractly as the constructor
  `PyVal.fmtTime fmt ticks` (a string determined by the format and the
  instant; its exact text is locale-dependent and never inspected).
* Python dictionaries are association lists in insertion order
  (`d[k] = v` keeps the position of an existing key and appends a new
  one, as CPython dicts do).
* Exceptions are modelled with `Except PyErr`; the LDAP library calls
  `bind_s` / `search_s` are replaced by explicit outcome parameters
  (`Except LdapErr _`), and each operation's connection usage is
  recorded as a trace of `ConnEvent`s mirroring the `try`/`finally`
  blocks of the source.
-/

/-- Python `bytes`, classified by UTF-8 decodability: `utf8 s` stands for
bytes whose `.decode("UTF-8")` succeeds with `s`; `binary b64` stands for
bytes whose decoding raises, with `b64` their base64 text (the only view
of such bytes the code ever produces). -/
inductive RawBytes where
  | utf8 (s : String)
  | binary (b64 : String)
deriving DecidableEq

/-- A Python runtime value, covering everything `easyad.py` stores in a
result dictionary. `dt ticks` is a `datetime` at `ticks` 100 ns units
after 1601-01-01T00:00:00; `fmtTime fmt ticks` is the string
`strftime(fmt)` of that datetime, kept abstract. -/
inductive PyVal where
  | str (v : String)
  | bytes (b : RawBytes)
  | int (n : ℤ)
  | bool (v : Bool)
  | dt (ticks : ℤ)
  | fmtTime (format : String) (ticks : ℤ)
  | pyNone
  | list (vs : List PyVal)

/-- Errors of the directory library (`ldap` module): the distinguished
invalid-credentials error and every other LDAP error. -/
inductive LdapErr where
  | invalidCredentials
  | other (code : String)
deriving DecidableEq

/-- Python exceptions raised by the modelled code. `notModelled` marks a
Python behaviour outside this embedding's scope (it is never `ok`). -/
inductive PyErr where
  | valueError (msg : String)
  | keyError (key : String)
  | typeError
  | ldap (e : LdapErr)
  | notModelled
deriving DecidableEq

/-- A decoded directory entry: a Python dict from attribute name to value,
in insertion order. -/
abbrev Entry := List (String × PyVal)

/-- Calls on an `ADConnection` object, for resource-usage traces. -/
inductive ConnEvent where
  | bind
  | search
  | unbind
deriving DecidableEq, BEq

/- ## Character-level string helpers (models of Python str methods) -/

/-- Model of Python `str.lower()` (ASCII case folding, which is all the
code relies on). -/
def pyLower (s : String) : String := ⟨s.data.map Char.toLower⟩

/-- Model of Python `pat in s`: contiguous substring containment. -/
def pyIn (pat s : String) : Bool := decide (pat.data <:+: s.data)

/-- Model of Python `s.split("\\")[-1]`: the part of `s` after the last
backslash (all of `s` when it has none). -/
def afterLastBackslash (s : String) : String :=
  ⟨(s.data.reverse.takeWhile (fun c => c ≠ '\\')).reverse⟩

/-- Code-point-wise lexicographic `≤` on character lists, the order
Python uses to compare `str` values. -/
def charListLe : List Char → List Char → Bool
  | [], _ => true
  | _ :: _, [] => false
  | a :: as, b :: bs =>
    if a.toNat < b.toNat then true
    else if b.toNat < a.toNat then false
    else charListLe as bs

/-- The case-insensitive comparison used by every `sorted(..., key=lambda
dn: dn.lower())` call in the source: compare lowercased strings. -/
def ciLe (a b : String) : Prop := charListLe (pyLower a).data (pyLower b).data = true

instance : DecidableRel ciLe := fun a b =>
  inferInstanceAs (Decidable (charListLe (pyLower a).data (pyLower b).data = true))

/-- Model of Python `sorted(ss, key=lambda dn: dn.lower())` on a list of
strings: the stable sort by `ciLe` (insertion sort is stable, so it
agrees with Python's stable sort on this total preorder). -/
def sortCI (ss : List String) : List String := List.insertionSort ciLe ss

/-- The digits-only core of Python `int(str)`: value of a nonempty string
of decimal digits. -/
def natOfDigits (cs : List Char) : Option ℕ :=
  if cs.isEmpty then none
  else cs.foldl (fun acc? c =>
    acc?.bind fun acc => if c.isDigit then some (acc * 10 + (c.toNat - 48)) else none)
    (some 0)

/-- Model of Python `int(s)` on a string: an optional sign followed by
decimal digits. (Python additionally strips surrounding whitespace and
allows underscore digit separators; the attribute values the code parses
are plain digit strings, so that is not modelled.) -/
def pyIntOfString (s : String) : Option ℤ :=
  match s.data with
  | '-' :: rest => (natOfDigits rest).map (fun n => -(n : ℤ))
  | '+' :: rest => (natOfDigits rest).map (fun n => (n : ℤ))
  | rest => (natOfDigits rest).map (fun n => (n : ℤ))

/-- Model of Python `int(x)` on the values the code feeds to it. -/
def pyInt : PyVal → Except PyErr ℤ
  | .int n => .ok n
  | .bool v => .ok (if v then 1 else 0)
  | .str s =>
    match pyIntOfString s with
    | some n => .ok n
    | none => .error (.valueError "invalid literal for int() with base 10")
  | _ => .error .typeError

/- ## Python dict helpers -/

/-- Model of Python `d[k] = v` on an insertion-ordered dict: replace the
value at an existing key in place, otherwise append the new pair. -/
def setA (e : Entry) (k : String) (v : PyVal) : Entry :=
  if (List.lookup k e).isSome then
    e.map fun kv => if kv.1 = k then (k, v) else kv
  else e ++ [(k, v)]

/- ## decode_ldap_results (easyad.py lines 90-114) -/

/-- A raw search result as returned by `search_s`: a `(dn, entry)` pair
whose second component is either a genuine attribute dict or non-dict
referral metadata (python-ldap yields `(None, [url])` referral items when
`OPT_REFERRALS` is 0). -/
inductive RawEntry where
  | dict (attrs : List (String × List RawBytes))
  | nonDict

/-- One raw attribute value through the `try: ... .decode("UTF-8") except
ValueError:` body (lines 106-110): UTF-8 decode if possible, else base64
text when `json_safe`, else the raw bytes unchanged. -/
def decode_value (b : RawBytes) (json_safe : Bool) : PyVal :=
  match b with
  | .utf8 s => .str s
  | .binary b64 => if json_safe then .str b64 else .bytes (.binary b64)

/-- One attribute's value list through lines 105-112: decode each value,
then collapse a single-element list to its bare element. -/
def decode_attribute (vs : List RawBytes) (json_safe : Bool) : PyVal :=
  match vs.map (fun b => decode_value b json_safe) with
  | [v] => v
  | ds => .list ds

/-- `decode_ldap_results` (lines 90-114): keep the entries whose second
component is a dict (line 101), in order, and decode every attribute of
each. -/
def decode_ldap_results (results : List (String × RawEntry)) (json_safe : Bool) :
    List Entry :=
  (results.filterMap fun de =>
    match de.2 with
    | .dict attrs => some attrs
    | .nonDict => none).map
    fun attrs => attrs.map fun kv => (kv.1, decode_attribute kv.2 json_safe)

/- ## Timestamp codec (easyad.py lines 40-87) -/

/-- The AD epoch 1601-01-01T00:00:00 on the tick scale. -/
def epoch_start : ℤ := 0

/-- One day (86400 seconds) in 100 ns ticks. -/
def dayTicks : ℤ := 864000000000

/-- `convert_ad_timestamp` (lines 40-61): `int()` the input; `0` means
unset and yields `None`; otherwise the result is the datetime
`epoch_start + timedelta(seconds=timestamp / 10 ** 7)`, i.e. the instant
`timestamp` ticks after the epoch, formatted by `strftime(str_format)`
when `json_safe`. -/
def convert_ad_timestamp (timestamp : PyVal) (json_safe : Bool) (str_format : String) :
    Except PyErr PyVal :=
  match pyInt timestamp with
  | .error e => .error e
  | .ok t =>
    if t = 0 then .ok .pyNone
    else
      let converted : ℤ := epoch_start + t
      if json_safe then .ok (.fmtTime str_format converted)
      else .ok (.dt converted)

/-- `_get_last_logon` (lines 64-87). Line 75 always calls
`convert_ad_timestamp` with `json_safe=False`; an unset timestamp gives
`-1`; `delta.days <= 14` gives the marker string; otherwise the branch
`elif json_safe: timestamp.strftime("%x %X")` (line 85) discards the
formatted string, so the datetime itself is returned. The final
catch-all mirrors the `TypeError` that `datetime.now() - timestamp`
would raise on a non-datetime; it is unreachable because line 75 passes
`json_safe=False`. -/
def get_last_logon (timestamp : PyVal) (json_safe : Bool) (now : ℤ) :
    Except PyErr PyVal :=
  match convert_ad_timestamp timestamp false "%x %X" with
  | .error e => .error e
  | .ok .pyNone => .ok (.int (-1))
  | .ok (.dt t) =>
    let days : ℤ := Int.fdiv (now - t) dayTicks
    if days ≤ 14 then .ok (.str "<= 14 days")
    else .ok (.dt t)
  | .ok _ => .error .typeError

/- ## sorted(..., key=lambda dn: dn.lower()) on attribute values -/

/-- Views a list of Python values as a list of strings when every element
is a `str`. -/
def asStrings : List PyVal → Option (List String)
  | [] => some []
  | .str v :: rest => (asStrings rest).map (fun ss => v :: ss)
  | _ => none

/-- Model of Python `sorted(x, key=lambda dn: dn.lower())` applied to an
attribute value `x`, as in lines 333, 335 and 431. A list of strings is
stably sorted case-insensitively. A bare string (an attribute that
`decode_ldap_results` collapsed to a scalar) is iterated character by
character, so Python returns its characters as a sorted list of
one-character strings. `sorted` of bytes raises (`int` has no `.lower`),
and a list containing non-`str` values is outside this model's scope
(Python would compare raw bytes objects). -/
def pySortedCI (v : PyVal) : Except PyErr PyVal :=
  match v with
  | .list vs =>
    match asStrings vs with
    | some ss => .ok (.list ((sortCI ss).map PyVal.str))
    | none => .error .notModelled
  | .str s => .ok (.list ((sortCI (s.data.map fun c => String.mk [c])).map PyVal.str))
  | _ => .error .typeError

/- ## EasyAD.get_user / get_group post-processing (lines 323-347, 419-431) -/

/-- Model of the recurring pattern `if k in d.keys(): d[k] = f(d[k])`. -/
def updateAttrM (e : Entry) (k : String) (f : PyVal → Except PyErr PyVal) :
    Except PyErr Entry :=
  match List.lookup k e with
  | some v => (f v).map (setA e k)
  | none => .ok e

/-- The userAccountControl block of `get_user` (lines 342-347): parse the
attribute as an int and derive the four boolean flag fields. -/
def decode_uac (e : Entry) : Except PyErr Entry :=
  match List.lookup "userAccountControl" e with
  | none => .ok e
  | some v =>
    match pyInt v with
    | .error err => .error err
    | .ok n =>
      .ok (setA (setA (setA (setA (setA e
        "userAccountControl" (.int n))
        "disabled" (.bool (decide (Int.land n 2 ≠ 0))))
        "passwordExpired" (.bool (decide (Int.land n 8388608 ≠ 0))))
        "passwordNeverExpires" (.bool (decide (Int.land n 65536 ≠ 0))))
        "smartcardRequired" (.bool (decide (Int.land n 262144 ≠ 0))))

/-- The per-user post-processing of `get_user` (lines 332-347). Note that
line 337 calls `_get_last_logon(user["lastLogonTimestamp"])` without
forwarding `json_safe`, so that call always receives its default
`json_safe=False`, while `lockoutTime` and `pwdLastSet` (lines 338-341)
do receive the caller's flag. -/
def get_user_post (user : Entry) (json_safe : Bool) (now : ℤ) : Except PyErr Entry := do
  let u ← updateAttrM user "memberOf" pySortedCI
  let u ← updateAttrM u "showInAddressBook" pySortedCI
  let u ← updateAttrM u "lastLogonTimestamp" (fun v => get_last_logon v false now)
  let u ← updateAttrM u "lockoutTime" (fun v => convert_ad_timestamp v json_safe "%x %X")
  let u ← updateAttrM u "pwdLastSet" (fun v => convert_ad_timestamp v json_safe "%x %X")
  decode_uac u

/-- `get_user` from its `decode_ldap_results` call onward (lines 323-347):
fail on zero matches (line 326) and on more than one (line 328), else
post-process the unique entry `results[0]`. -/
def get_user_from_results (results : List (String × RawEntry)) (json_safe : Bool)
    (now : ℤ) : Except PyErr Entry :=
  match decode_ldap_results results json_safe with
  | [] => .error (.valueError "No such user")
  | _ :: _ :: _ => .error (.valueError "The query returned more than one result")
  | [user] => get_user_post user json_safe now

/-- `get_group` from its `decode_ldap_results` call onward (lines
419-431): the same zero/many checks with the group message, then the
case-insensitive sort of `member` (line 431). -/
def get_group_from_results (results : List (String × RawEntry)) (json_safe : Bool) :
    Except PyErr Entry :=
  match decode_ldap_results results json_safe with
  | [] => .error (.valueError "No such group")
  | _ :: _ :: _ => .error (.valueError "The query returned more than one result")
  | [group] => updateAttrM group "member" pySortedCI

/-- The shared body of `get_all_user_groups` (lines 518-519) and
`get_all_users_in_group` (lines 557-558): map every decoded entry to its
`distinguishedName` value (a `KeyError` if one lacks it) and sort the
collected list case-insensitively. -/
def get_membership_post (results : List (String × RawEntry)) (json_safe : Bool) :
    Except PyErr PyVal := do
  let dns ← (decode_ldap_results results json_safe).mapM fun e =>
    match List.lookup "distinguishedName" e with
    | some v => Except.ok v
    | none => Except.error (PyErr.keyError "distinguishedName")
  pySortedCI (.list dns)

/- ## Connection lifecycle of the search operations -/

/-- The shape shared by `get_user` (314-350), `get_group` (411-427),
`get_all_user_groups` (510-521) and `get_all_users_in_group` (549-561):
construct an `ADConnection`, then `try: connection.bind(credentials);
results = connection.ad.search_s(...); <body> finally:
connection.unbind()`. The outcomes of the library calls `bind_s` and
`search_s` are the parameters `bindR` and `searchR`; the returned trace
records the connection calls made, and the `finally` block appends
`unbind` on every path. -/
def runSearchOp (bindR : Except LdapErr Unit)
    (searchR : Except LdapErr (List (String × RawEntry)))
    (body : List (String × RawEntry) → Except PyErr α) :
    List ConnEvent × Except PyErr α :=
  let inTry : List ConnEvent × Except PyErr α :=
    match bindR with
    | .error e => ([.bind], .error (.ldap e))
    | .ok _ =>
      match searchR with
      | .error e => ([.bind, .search], .error (.ldap e))
      | .ok results => ([.bind, .search], body results)
  (inTry.1 ++ [.unbind], inTry.2)

/-- `EasyAD.get_user` (lines 284-352) given the outcomes of its two
library calls: trace of connection events and result. -/
def get_user_run (bindR : Except LdapErr Unit)
    (searchR : Except LdapErr (List (String × RawEntry)))
    (json_safe : Bool) (now : ℤ) : List ConnEvent × Except PyErr Entry :=
  runSearchOp bindR searchR fun results => get_user_from_results results json_safe now

/-- `EasyAD.get_group` (lines 382-433). The `member` sort sits after the
`finally` block in the source, which leaves both the trace and the
returned value as modelled here. -/
def get_group_run (bindR : Except LdapErr Unit)
    (searchR : Except LdapErr (List (String × RawEntry)))
    (json_safe : Bool) : List ConnEvent × Except PyErr Entry :=
  runSearchOp bindR searchR fun results => get_group_from_results results json_safe

/-- `EasyAD.get_all_user_groups` (lines 485-521), from the creation of
its own connection at line 510 (the preceding `resolve_user_dn` call
uses a connection of its own when it needs one and is not part of this
operation's lifecycle). -/
def get_all_user_groups_run (bindR : Except LdapErr Unit)
    (searchR : Except LdapErr (List (String × RawEntry)))
    (json_safe : Bool) : List ConnEvent × Except PyErr PyVal :=
  runSearchOp bindR searchR fun results => get_membership_post results json_safe

/-- `EasyAD.get_all_users_in_group` (lines 523-561), from the creation of
its own connection at line 549. -/
def get_all_users_in_group_run (bindR : Except LdapErr Unit)
    (searchR : Except LdapErr (List (String × RawEntry)))
    (json_safe : Bool) : List ConnEvent × Except PyErr PyVal :=
  runSearchOp bindR searchR fun results => get_membership_post results json_safe

/-- The result of `authenticate_user`: the user's attribute dict on
success, or Python `False`. -/
inductive AuthResult where
  | entry (user : Entry)
  | failed

/-- `EasyAD.authenticate_user` (lines 354-380): call `get_user` with the
given credentials; `except ldap.INVALID_CREDENTIALS: return False`; every
other exception propagates. -/
def authenticate_user (bindR : Except LdapErr Unit)
    (searchR : Except LdapErr (List (String × RawEntry)))
    (json_safe : Bool) (now : ℤ) : Except PyErr AuthResult :=
  match (get_user_run bindR searchR json_safe now).2 with
  | .ok u => .ok (.entry u)
  | .error (.ldap .invalidCredentials) => .ok .failed
  | .error e => .error e

/- ## EasyAD.__init__ (lines 260-282) -/

/-- Model of Python `s.split(sep)` for a one-character separator:
accumulate characters between separators (empty string fields included). -/
def splitOnCharAux (sep : Char) : List Char → List Char → List (List Char)
  | [], acc => [acc.reverse]
  | c :: cs, acc =>
    if c = sep then acc.reverse :: splitOnCharAux sep cs []
    else splitOnCharAux sep cs (c :: acc)

/-- Python `s.split(sep)` for a one-character separator. -/
def pySplitChar (s : String) (sep : Char) : List String :=
  (splitOnCharAux sep s.data []).map fun cs => ⟨cs⟩

/-- Python `s.rstrip(",")`: drop every trailing comma. -/
def rstripCommas (s : String) : String :=
  ⟨(s.data.reverse.dropWhile (fun c => c = ',')).reverse⟩

/-- Lines 275-278: build `"dc=<part>," ...` from the dotted domain and
strip the trailing comma. -/
def derive_base_dn (domain : String) : String :=
  rstripCommas (String.join ((pySplitChar domain '.').map fun part => "dc=" ++ part ++ ","))

/-- A configuration or credentials dictionary. -/
abbrev Config := List (String × PyVal)

/-- The base-DN handling of `EasyAD.__init__` (lines 274-280). Line 279
reads `if "AD_BASE_DN" not in self.config.keys() or self.config["BASE_DN"]
is None:` - note the second disjunct indexes the key `"BASE_DN"`, not
`"AD_BASE_DN"`, and raises `KeyError` when that key is absent. The
short-circuit evaluation of `or` is modelled by the nested match. -/
def easyAD_init_base_dn (config : Config) : Except PyErr Config :=
  match List.lookup "AD_DOMAIN" config with
  | none => .error (.keyError "AD_DOMAIN")
  | some (.str domain) =>
    let base_dn := derive_base_dn domain
    if (List.lookup "AD_BASE_DN" config).isNone then
      .ok (setA config "AD_BASE_DN" (.str base_dn))
    else
      match List.lookup "BASE_DN" config with
      | none => .error (.keyError "BASE_DN")
      | some .pyNone => .ok (setA config "AD_BASE_DN" (.str base_dn))
      | some _ => .ok config
  | some _ => .error .typeError

/- ## ADConnection.bind (lines 141-172) -/

/-- Lines 156-163: the fallback to the configured default bind identity,
with its two configuration errors. -/
def fallback_credentials (config : Config) : Except PyErr Config :=
  match List.lookup "AD_BIND_USERNAME" config with
  | none => .error (.valueError "AD_BIND_USERNAME must be set")
  | some .pyNone => .error (.valueError "AD_BIND_USERNAME must be set")
  | some u =>
    match List.lookup "AD_BIND_PASSWORD" config with
    | none => .error (.valueError "AD_BIND_PASSWORD must be set")
    | some .pyNone => .error (.valueError "AD_BIND_PASSWORD must be set")
    | some p => .ok [("username", u), ("password", p)]

/-- Line 155: `if credentials is None or "username" not in credentials or
"password" not in credentials:` - a missing dictionary or a missing key
selects the configured fallback; otherwise the caller's dictionary is
used as is. -/
def resolve_bind_credentials (credentials : Option Config) (config : Config) :
    Except PyErr Config :=
  match credentials with
  | none => fallback_credentials config
  | some c =>
    if (List.lookup "username" c).isNone || (List.lookup "password" c).isNone then
      fallback_credentials config
    else .ok c

/-- Lines 155-171 of `ADConnection.bind`, up to the `bind_s` call: the
`(username, password)` pair that is passed to the directory library.
Line 165 keeps the part after the last backslash; line 166 appends
`@<AD_DOMAIN>` when the result contains neither `"@"` nor (lowercased)
`"cn="`; the string formatting of line 167 reads `config["AD_DOMAIN"]`
only in that branch. -/
def bind_identity (credentials : Option Config) (config : Config) :
    Except PyErr (String × PyVal) := do
  let creds ← resolve_bind_credentials credentials config
  let uv ← match List.lookup "username" creds with
    | some v => Except.ok v
    | none => Except.error (PyErr.keyError "username")
  let u ← match uv with
    | .str s => Except.ok s
    | _ => Except.error PyErr.typeError
  let tail := afterLastBackslash u
  let username ←
    if !(pyIn "@" tail) && !(pyIn "cn=" (pyLower tail)) then
      match List.lookup "AD_DOMAIN" config with
      | some (.str d) => Except.ok (tail ++ "@" ++ d)
      | some _ => Except.error PyErr.notModelled
      | none => Except.error (PyErr.keyError "AD_DOMAIN")
    else Except.ok tail
  let password ← match List.lookup "password" creds with
    | some v => Except.ok v
    | none => Except.error (PyErr.keyError "password")
  Except.ok (username, password)

/-- Modelled from the spec: the spec's own wording of the username
normalization in `ADConnection.bind`, for comparison with the code.
It demands a case-insensitive `cn=` PREFIX test ("is not already a
distinguished-name-style string (`cn=` prefix, case-insensitive)"),
where line 166 of the source tests substring containment. -/
def spec_normalize_bind_username (username domain : String) : String :=
  let tail := afterLastBackslash username
  if !(pyIn "@" tail) && !("cn=".data.isPrefixOf (pyLower tail).data) then
    tail ++ "@" ++ domain
  else tail

/- ## Well-formedness of decoded entries (hypotheses for get_user) -/

/-- A value that is a Python list whose members are all strings. -/
def isStrList (v : PyVal) : Bool :=
  match v with
  | .list vs => (asStrings vs).isSome
  | _ => false

/-- Attribute `k` of `u` is absent or a list of strings. -/
def attrOkStrList (u : Entry) (k : String) : Bool :=
  match List.lookup k u with
  | none => true
  | some v => isStrList v

/-- Attribute `k` of `u` is absent or a string that `int()` accepts. -/
def attrOkIntText (u : Entry) (k : String) : Bool :=
  match List.lookup k u with
  | none => true
  | some (.str s) => (pyIntOfString s).isSome
  | some _ => false

/-- The shape a decoded user entry has in a real directory: the two
sorted list attributes are absent or lists of strings, and the four
numeric attributes are absent or digit strings. -/
def user_wellformed (u : Entry) : Bool :=
  attrOkStrList u "memberOf" && attrOkStrList u "showInAddressBook" &&
  attrOkIntText u "lastLogonTimestamp" && attrOkIntText u "lockoutTime" &&
  attrOkIntText u "pwdLastSet" && attrOkIntText u "userAccountControl"

/-- Case-insensitive ascending order, the order the spec requires of the
sorted membership attributes. -/
def ciSorted (ss : List String) : Prop := ss.Pairwise ciLe

instance : IsTotal String ciLe := by
  constructor
  intro a b
  show charListLe (pyLower a).data (pyLower b).data = true ∨
    charListLe (pyLower b).data (pyLower a).data = true
  generalize (pyLower a).data = as
  generalize (pyLower b).data = bs
  induction as generalizing bs with
  | nil => exact Or.inl rfl
  | cons x xs ih =>
    cases bs with
    | nil => exact Or.inr rfl
    | cons y ys =>
      rcases Nat.lt_trichotomy x.toNat y.toNat with h | h | h
      · exact Or.inl (by simp [charListLe, h])
      · have h1 : ¬ x.toNat < y.toNat := by omega
        have h2 : ¬ y.toNat < x.toNat := by omega
        rcases ih ys with hc | hc
        · exact Or.inl (by simp [charListLe, h1, h2, hc])
        · exact Or.inr (by simp [charListLe, h1, h2, hc])
      · exact Or.inr (by simp [charListLe, h])

instance : IsTrans String ciLe := by
  constructor
  intro a b c hab hbc
  show charListLe (pyLower a).data (pyLower c).data = true
  revert hab hbc
  show charListLe (pyLower a).data (pyLower b).data = true →
    charListLe (pyLower b).data (pyLower c).data = true →
    charListLe (pyLower a).data (pyLower c).data = true
  generalize (pyLower a).data = as
  generalize (pyLower b).data = bs
  generalize (pyLower c).data = cs
  induction as generalizing bs cs with
  | nil => intro _ _; rfl
  | cons x xs ih =>
    intro hab hbc
    cases bs with
    | nil => simp [charListLe] at hab
    | cons y ys =>
      cases cs with
      | nil => simp [charListLe] at hbc
      | cons z zs =>
        rcases Nat.lt_trichotomy x.toNat y.toNat with hxy | hxy | hxy
        · rcases Nat.lt_trichotomy y.toNat z.toNat with hyz | hyz | hyz
          · simp [charListLe, show x.toNat < z.toNat from by omega]
          · simp [charListLe, show x.toNat < z.toNat from by omega]
          · simp only [charListLe, if_neg (show ¬ y.toNat < z.toNat from by omega),
              if_pos hyz] at hbc
            exact (Bool.false_ne_true hbc).elim
        · rcases Nat.lt_trichotomy y.toNat z.toNat with hyz | hyz | hyz
          · simp [charListLe, show x.toNat < z.toNat from by omega]
          · simp only [charListLe, if_neg (show ¬ x.toNat < y.toNat from by omega),
              if_neg (show ¬ y.toNat < x.toNat from by omega)] at hab
            simp only [charListLe, if_neg (show ¬ y.toNat < z.toNat from by omega),
              if_neg (show ¬ z.toNat < y.toNat from by omega)] at hbc
            simp only [charListLe, if_neg (show ¬ x.toNat < z.toNat from by omega),
              if_neg (show ¬ z.toNat < x.toNat from by omega)]
            exact ih ys zs hab hbc
          · simp only [charListLe, if_neg (show ¬ y.toNat < z.toNat from by omega),
              if_pos hyz] at hbc
            exact (Bool.false_ne_true hbc).elim
        · simp only [charListLe, if_neg (show ¬ x.toNat < y.toNat from by omega),
            if_pos hxy] at hab
          exact (Bool.false_ne_true hab).elim

/- ## Helper lemmas -/

theorem sortCI_perm (ss : List String) : (sortCI ss).Perm ss :=
  List.perm_insertionSort ciLe ss

theorem sortCI_sorted (ss : List String) : ciSorted (sortCI ss) :=
  List.sorted_insertionSort ciLe ss

theorem asStrings_map_str (ss : List String) : asStrings (ss.map PyVal.str) = some ss := by
  induction ss with
  | nil => rfl
  | cons s rest ih => simp [asStrings, ih]

theorem asStrings_eq_some {vs : List PyVal} {ss : List String}
    (h : asStrings vs = some ss) : vs = ss.map PyVal.str := by
  induction vs generalizing ss with
  | nil => simp [asStrings] at h; simp [← h]
  | cons v rest ih =>
    cases v with
    | str s =>
      simp only [asStrings, Option.map_eq_some'] at h
      obtain ⟨ts, hts, rfl⟩ := h
      simp [ih hts]
    | bytes b => simp [asStrings] at h
    | int n => simp [asStrings] at h
    | bool b => simp [asStrings] at h
    | dt t => simp [asStrings] at h
    | fmtTime f t => simp [asStrings] at h
    | pyNone => simp [asStrings] at h
    | list l => simp [asStrings] at h

theorem pySortedCI_strList (ss : List String) :
    pySortedCI (.list (ss.map PyVal.str)) = .ok (.list ((sortCI ss).map PyVal.str)) := by
  simp [pySortedCI, asStrings_map_str]

theorem lookup_cons_self (k : String) (v : PyVal) (es : Entry) :
    List.lookup k ((k, v) :: es) = some v := by
  simp [List.lookup_cons]

theorem lookup_cons_ne {k k1 : String} (hk : k ≠ k1) (v : PyVal) (es : Entry) :
    List.lookup k ((k1, v) :: es) = List.lookup k es := by
  simp [List.lookup_cons, beq_eq_false_iff_ne.mpr hk]

theorem lookup_map_setA (e : Entry) {k k' : String} (v : PyVal) (h : k' ≠ k) :
    List.lookup k' (e.map fun kv => if kv.1 = k then (k, v) else kv) = List.lookup k' e := by
  induction e with
  | nil => rfl
  | cons kv rest ih =>
    obtain ⟨k1, v1⟩ := kv
    by_cases hk : k1 = k
    · subst hk
      simp only [List.map_cons]
      rw [if_true]
      rw [lookup_cons_ne h, lookup_cons_ne h]
      exact ih
    · simp only [List.map_cons, if_neg hk]
      by_cases hk' : k' = k1
      · subst hk'
        rw [lookup_cons_self, lookup_cons_self]
      · rw [lookup_cons_ne hk', lookup_cons_ne hk']
        exact ih

theorem lookup_append_single_ne (e : Entry) {k k' : String} (v : PyVal) (h : k' ≠ k) :
    List.lookup k' (e ++ [(k, v)]) = List.lookup k' e := by
  induction e with
  | nil =>
    rw [List.nil_append, lookup_cons_ne h]
  | cons kv rest ih =>
    obtain ⟨k1, v1⟩ := kv
    by_cases hk' : k' = k1
    · subst hk'
      rw [List.cons_append, lookup_cons_self, lookup_cons_self]
    · rw [List.cons_append, lookup_cons_ne hk', lookup_cons_ne hk']
      exact ih

theorem lookup_setA_ne (e : Entry) {k k' : String} (v : PyVal) (h : k' ≠ k) :
    List.lookup k' (setA e k v) = List.lookup k' e := by
  unfold setA
  by_cases hs : (List.lookup k e).isSome
  · simp only [hs, if_true]
    exact lookup_map_setA e v h
  · simp only [hs, Bool.false_eq_true, if_false]
    exact lookup_append_single_ne e v h

theorem lookup_map_setA_self (e : Entry) (k : String) (v : PyVal)
    (h : (List.lookup k e).isSome) :
    List.lookup k (e.map fun kv => if kv.1 = k then (k, v) else kv) = some v := by
  induction e with
  | nil => simp [List.lookup] at h
  | cons kv rest ih =>
    obtain ⟨k1, v1⟩ := kv
    by_cases hk : k1 = k
    · subst hk
      simp only [List.map_cons]
      rw [if_true]
      rw [lookup_cons_self]
    · simp only [List.map_cons, if_neg hk]
      rw [lookup_cons_ne (Ne.symm hk)]
      rw [lookup_cons_ne (Ne.symm hk)] at h
      exact ih h

theorem lookup_append_single_self (e : Entry) (k : String) (v : PyVal)
    (h : List.lookup k e = none) :
    List.lookup k (e ++ [(k, v)]) = some v := by
  induction e with
  | nil => simp [lookup_cons_self]
  | cons kv rest ih =>
    obtain ⟨k1, v1⟩ := kv
    by_cases hk : k = k1
    · subst hk
      rw [lookup_cons_self] at h
      cases h
    · rw [List.cons_append, lookup_cons_ne hk]
      rw [lookup_cons_ne hk] at h
      exact ih h

theorem lookup_setA_self (e : Entry) (k : String) (v : PyVal) :
    List.lookup k (setA e k v) = some v := by
  unfold setA
  by_cases h : (List.lookup k e).isSome
  · simp only [h, if_true]
    exact lookup_map_setA_self e k v h
  · simp only [h, Bool.false_eq_true, if_false]
    exact lookup_append_single_self e k v (Option.not_isSome_iff_eq_none.mp (by simp [h]))

theorem updateAttrM_spec (e : Entry) (k : String) (f : PyVal → Except PyErr PyVal)
    (h : ∀ v, List.lookup k e = some v → ∃ w, f v = .ok w) :
    ∃ e', updateAttrM e k f = .ok e' ∧
      (∀ k', k' ≠ k → List.lookup k' e' = List.lookup k' e) ∧
      (∀ v, List.lookup k e = some v → ∃ w, f v = .ok w ∧ List.lookup k e' = some w) := by
  cases hm : List.lookup k e with
  | none =>
    refine ⟨e, ?_, fun _ _ => rfl, ?_⟩
    · unfold updateAttrM
      rw [hm]
    · intro v hv
      cases hv
  | some v =>
    obtain ⟨w, hw⟩ := h v hm
    refine ⟨setA e k w, ?_, fun k' hk' => lookup_setA_ne e w hk', ?_⟩
    · unfold updateAttrM
      rw [hm]
      simp only [hw, Except.map]
    · intro v' hv'
      cases hv'
      exact ⟨w, hw, lookup_setA_self e k w⟩

theorem decode_uac_spec (e : Entry)
    (h : ∀ v, List.lookup "userAccountControl" e = some v → ∃ n, pyInt v = .ok n) :
    ∃ e', decode_uac e = .ok e' ∧
      ∀ k', k' ≠ "userAccountControl" → k' ≠ "disabled" → k' ≠ "passwordExpired" →
        k' ≠ "passwordNeverExpires" → k' ≠ "smartcardRequired" →
        List.lookup k' e' = List.lookup k' e := by
  cases hm : List.lookup "userAccountControl" e with
  | none =>
    refine ⟨e, ?_, fun _ _ _ _ _ _ => rfl⟩
    unfold decode_uac
    rw [hm]
  | some v =>
    obtain ⟨n, hn⟩ := h v hm
    refine ⟨setA (setA (setA (setA (setA e
        "userAccountControl" (.int n))
        "disabled" (.bool (decide (Int.land n 2 ≠ 0))))
        "passwordExpired" (.bool (decide (Int.land n 8388608 ≠ 0))))
        "passwordNeverExpires" (.bool (decide (Int.land n 65536 ≠ 0))))
        "smartcardRequired" (.bool (decide (Int.land n 262144 ≠ 0))), ?_, ?_⟩
    · unfold decode_uac
      rw [hm]
      simp only [hn]
    · intro k' h1 h2 h3 h4 h5
      rw [lookup_setA_ne _ _ h5, lookup_setA_ne _ _ h4, lookup_setA_ne _ _ h3,
        lookup_setA_ne _ _ h2, lookup_setA_ne _ _ h1]

theorem attrOkStrList_elim {u : Entry} {k : String} (h : attrOkStrList u k = true) :
    ∀ v, List.lookup k u = some v → ∃ ss : List String, v = PyVal.list (ss.map PyVal.str) := by
  intro v hv
  unfold attrOkStrList at h
  rw [hv] at h
  cases v with
  | list vs =>
    have h' : (asStrings vs).isSome = true := h
    obtain ⟨ss, hss⟩ := Option.isSome_iff_exists.mp h'
    exact ⟨ss, congrArg PyVal.list (asStrings_eq_some hss)⟩
  | str s => exact Bool.noConfusion h
  | bytes b => exact Bool.noConfusion h
  | int n => exact Bool.noConfusion h
  | bool b => exact Bool.noConfusion h
  | dt t => exact Bool.noConfusion h
  | fmtTime f t => exact Bool.noConfusion h
  | pyNone => exact Bool.noConfusion h

theorem attrOkIntText_elim {u : Entry} {k : String} (h : attrOkIntText u k = true) :
    ∀ v, List.lookup k u = some v → ∃ s n, v = PyVal.str s ∧ pyIntOfString s = some n := by
  intro v hv
  unfold attrOkIntText at h
  rw [hv] at h
  cases v with
  | str s =>
    have h' : (pyIntOfString s).isSome = true := h
    obtain ⟨n, hn⟩ := Option.isSome_iff_exists.mp h'
    exact ⟨s, n, rfl, hn⟩
  | list vs => exact Bool.noConfusion h
  | bytes b => exact Bool.noConfusion h
  | int n => exact Bool.noConfusion h
  | bool b => exact Bool.noConfusion h
  | dt t => exact Bool.noConfusion h
  | fmtTime f t => exact Bool.noConfusion h
  | pyNone => exact Bool.noConfusion h

theorem get_last_logon_ok {s : String} {n : ℤ} (js : Bool) (now : ℤ)
    (h : pyIntOfString s = some n) :
    ∃ w, get_last_logon (.str s) js now = .ok w := by
  by_cases h0 : n = 0
  · subst h0
    exact ⟨.int (-1), by simp [get_last_logon, convert_ad_timestamp, pyInt, h]⟩
  · by_cases hd : Int.fdiv (now - (epoch_start + n)) dayTicks ≤ 14
    · exact ⟨.str "<= 14 days",
        by simp [get_last_logon, convert_ad_timestamp, pyInt, h, h0, hd]⟩
    · exact ⟨.dt (epoch_start + n),
        by simp [get_last_logon, convert_ad_timestamp, pyInt, h, h0, hd]⟩

theorem convert_ok {s : String} {n : ℤ} (js : Bool) (fmt : String)
    (h : pyIntOfString s = some n) :
    ∃ w, convert_ad_timestamp (.str s) js fmt = .ok w := by
  simp only [convert_ad_timestamp, pyInt, h]
  split
  · exact ⟨_, rfl⟩
  · split
    · exact ⟨_, rfl⟩
    · exact ⟨_, rfl⟩

theorem pyInt_str_ok {s : String} {n : ℤ} (h : pyIntOfString s = some n) :
    pyInt (.str s) = .ok n := by
  simp [pyInt, h]

theorem get_user_post_spec (u : Entry) (js : Bool) (now : ℤ)
    (h : user_wellformed u = true) :
    ∃ e, get_user_post u js now = .ok e ∧
      (∀ ss : List String, List.lookup "memberOf" u = some (.list (ss.map PyVal.str)) →
        List.lookup "memberOf" e = some (.list ((sortCI ss).map PyVal.str))) ∧
      (∀ ss : List String,
        List.lookup "showInAddressBook" u = some (.list (ss.map PyVal.str)) →
        List.lookup "showInAddressBook" e = some (.list ((sortCI ss).map PyVal.str))) := by
  have h' := h
  unfold user_wellformed at h'
  simp only [Bool.and_eq_true] at h'
  obtain ⟨⟨⟨⟨⟨h1, h2⟩, h3⟩, h4⟩, h5⟩, h6⟩ := h'
  -- step 1: memberOf
  have hmemOk : ∀ v, List.lookup "memberOf" u = some v → ∃ w, pySortedCI v = .ok w := by
    intro v hv
    obtain ⟨ss, rfl⟩ := attrOkStrList_elim h1 v hv
    exact ⟨_, pySortedCI_strList ss⟩
  obtain ⟨e1, he1, hp1, hv1⟩ := updateAttrM_spec u "memberOf" pySortedCI hmemOk
  -- step 2: showInAddressBook
  have hsab_eq : List.lookup "showInAddressBook" e1 = List.lookup "showInAddressBook" u :=
    hp1 _ (by decide)
  have hsabOk : ∀ v, List.lookup "showInAddressBook" e1 = some v →
      ∃ w, pySortedCI v = .ok w := by
    intro v hv
    rw [hsab_eq] at hv
    obtain ⟨ss, rfl⟩ := attrOkStrList_elim h2 v hv
    exact ⟨_, pySortedCI_strList ss⟩
  obtain ⟨e2, he2, hp2, hv2⟩ := updateAttrM_spec e1 "showInAddressBook" pySortedCI hsabOk
  -- step 3: lastLogonTimestamp (json_safe not forwarded in the source)
  have hll_eq : List.lookup "lastLogonTimestamp" e2 = List.lookup "lastLogonTimestamp" u := by
    rw [hp2 _ (by decide), hp1 _ (by decide)]
  have hllOk : ∀ v, List.lookup "lastLogonTimestamp" e2 = some v →
      ∃ w, get_last_logon v false now = .ok w := by
    intro v hv
    rw [hll_eq] at hv
    obtain ⟨s, n, rfl, hn⟩ := attrOkIntText_elim h3 v hv
    exact get_last_logon_ok false now hn
  obtain ⟨e3, he3, hp3, hv3⟩ :=
    updateAttrM_spec e2 "lastLogonTimestamp" (fun v => get_last_logon v false now) hllOk
  -- step 4: lockoutTime
  have hlo_eq : List.lookup "lockoutTime" e3 = List.lookup "lockoutTime" u := by
    rw [hp3 _ (by decide), hp2 _ (by decide), hp1 _ (by decide)]
  have hloOk : ∀ v, List.lookup "lockoutTime" e3 = some v →
      ∃ w, convert_ad_timestamp v js "%x %X" = .ok w := by
    intro v hv
    rw [hlo_eq] at hv
    obtain ⟨s, n, rfl, hn⟩ := attrOkIntText_elim h4 v hv
    exact convert_ok js _ hn
  obtain ⟨e4, he4, hp4, hv4⟩ :=
    updateAttrM_spec e3 "lockoutTime" (fun v => convert_ad_timestamp v js "%x %X") hloOk
  -- step 5: pwdLastSet
  have hpw_eq : List.lookup "pwdLastSet" e4 = List.lookup "pwdLastSet" u := by
    rw [hp4 _ (by decide), hp3 _ (by decide), hp2 _ (by decide), hp1 _ (by decide)]
  have hpwOk : ∀ v, List.lookup "pwdLastSet" e4 = some v →
      ∃ w, convert_ad_timestamp v js "%x %X" = .ok w := by
    intro v hv
    rw [hpw_eq] at hv
    obtain ⟨s, n, rfl, hn⟩ := attrOkIntText_elim h5 v hv
    exact convert_ok js _ hn
  obtain ⟨e5, he5, hp5, hv5⟩ :=
    updateAttrM_spec e4 "pwdLastSet" (fun v => convert_ad_timestamp v js "%x %X") hpwOk
  -- step 6: userAccountControl flags
  have huac_eq : List.lookup "userAccountControl" e5 = List.lookup "userAccountControl" u := by
    rw [hp5 _ (by decide), hp4 _ (by decide), hp3 _ (by decide), hp2 _ (by decide),
      hp1 _ (by decide)]
  have huacOk : ∀ v, List.lookup "userAccountControl" e5 = some v →
      ∃ n, pyInt v = .ok n := by
    intro v hv
    rw [huac_eq] at hv
    obtain ⟨s, n, rfl, hn⟩ := attrOkIntText_elim h6 v hv
    exact ⟨n, pyInt_str_ok hn⟩
  obtain ⟨e6, he6, hp6⟩ := decode_uac_spec e5 huacOk
  refine ⟨e6, ?_, ?_, ?_⟩
  · unfold get_user_post
    rw [he1]
    simp only [Except.bind, bind]
    rw [he2]
    simp only [Except.bind, bind]
    rw [he3]
    simp only [Except.bind, bind]
    rw [he4]
    simp only [Except.bind, bind]
    rw [he5]
    simp only [Except.bind, bind]
    exact he6
  · intro ss hss
    obtain ⟨w, hw, hke1⟩ := hv1 _ hss
    rw [pySortedCI_strList] at hw
    cases hw
    rw [hp6 _ (by decide) (by decide) (by decide) (by decide) (by decide),
      hp5 _ (by decide), hp4 _ (by decide), hp3 _ (by decide), hp2 _ (by decide)]
    exact hke1
  · intro ss hss
    rw [← hsab_eq] at hss
    obtain ⟨w, hw, hke2⟩ := hv2 _ hss
    rw [pySortedCI_strList] at hw
    cases hw
    rw [hp6 _ (by decide) (by decide) (by decide) (by decide) (by decide),
      hp5 _ (by decide), hp4 _ (by decide), hp3 _ (by decide)]
    exact hke2

theorem dropWhile_head_not {p : Char → Bool} :
    ∀ (l : List Char) {d : Char} {ds : List Char}, l.dropWhile p = d :: ds → p d = false := by
  intro l
  induction l with
  | nil => intro d ds h; cases h
  | cons a t ih =>
    intro d ds h
    by_cases hp : p a
    · rw [List.dropWhile_cons_of_pos hp] at h
      exact ih h
    · rw [List.dropWhile_cons_of_neg hp] at h
      cases h
      simpa using hp

theorem afterLastBackslash_suffix (s : String) : (afterLastBackslash s).data <:+ s.data := by
  have h : s.data.reverse.takeWhile (fun c => decide (c ≠ '\\')) <+: s.data.reverse :=
    List.takeWhile_prefix _
  have h2 := List.reverse_suffix.mpr h
  simpa [afterLastBackslash] using h2

theorem afterLastBackslash_no_bs (s : String) : '\\' ∉ (afterLastBackslash s).data := by
  intro hm
  unfold afterLastBackslash at hm
  rw [show (String.mk ((s.data.reverse.takeWhile (fun c => decide (c ≠ '\\'))).reverse)).data
      = (s.data.reverse.takeWhile (fun c => decide (c ≠ '\\'))).reverse from rfl,
    List.mem_reverse] at hm
  have := List.mem_takeWhile_imp hm
  simp at this

theorem afterLastBackslash_of_mem (s : String) (h : '\\' ∈ s.data) :
    '\\' :: (afterLastBackslash s).data <:+ s.data := by
  have hr : '\\' ∈ s.data.reverse := by rwa [List.mem_reverse]
  have hd : s.data.reverse.dropWhile (fun c => decide (c ≠ '\\')) ≠ [] := by
    intro h0
    rw [List.dropWhile_eq_nil_iff] at h0
    have := h0 _ hr
    simp at this
  obtain ⟨d, ds, hds⟩ := List.exists_cons_of_ne_nil hd
  have hdEq : d = '\\' := by
    have := dropWhile_head_not _ hds
    simpa using this
  subst hdEq
  have hsplit : s.data.reverse.takeWhile (fun c => decide (c ≠ '\\')) ++
      ('\\' :: ds) = s.data.reverse := by
    rw [← hds]
    exact List.takeWhile_append_dropWhile _ _
  refine ⟨ds.reverse, ?_⟩
  have : s.data = ds.reverse ++
      ('\\' :: (s.data.reverse.takeWhile (fun c => decide (c ≠ '\\'))).reverse) := by
    conv_lhs => rw [← List.reverse_reverse s.data, ← hsplit]
    simp
  exact this.symm

theorem afterLastBackslash_of_not_mem (s : String) (h : '\\' ∉ s.data) :
    afterLastBackslash s = s := by
  unfold afterLastBackslash
  have ht : s.data.reverse.takeWhile (fun c => decide (c ≠ '\\')) = s.data.reverse := by
    rw [List.takeWhile_eq_self_iff]
    intro a ha
    rw [List.mem_reverse] at ha
    simp only [decide_eq_true_iff]
    intro heq
    exact h (heq ▸ ha)
  rw [ht, List.reverse_reverse]

theorem bind_identity_eval (u pw d : String) :
    bind_identity (some [("username", .str u), ("password", .str pw)])
      [("AD_DOMAIN", .str d)] =
    .ok ((if !(pyIn "@" (afterLastBackslash u)) &&
        !(pyIn "cn=" (pyLower (afterLastBackslash u)))
      then afterLastBackslash u ++ "@" ++ d else afterLastBackslash u), .str pw) := by
  by_cases hc : (!(pyIn "@" (afterLastBackslash u)) &&
      !(pyIn "cn=" (pyLower (afterLastBackslash u)))) = true
  · simp [bind_identity, resolve_bind_credentials, List.lookup_cons, hc, Except.bind, bind]
  · simp only [Bool.not_eq_true] at hc
    simp [bind_identity, resolve_bind_credentials, List.lookup_cons, hc, Except.bind, bind]

/- ## Claim theorems -/

/-- C3: every public search operation (`get_user`, `get_group`,
`get_all_user_groups`, `get_all_users_in_group`) calls `unbind` on its
connection exactly once on every exit path - when bind and search
succeed, and also when either library call raises - so a failed search
never leaves the connection unreleased. -/
theorem C3_unbind_exactly_once :
    ∀ (bindR : Except LdapErr Unit) (searchR : Except LdapErr (List (String × RawEntry)))
      (json_safe : Bool) (now : ℤ),
      (get_user_run bindR searchR json_safe now).1.count ConnEvent.unbind = 1 ∧
      (get_group_run bindR searchR json_safe).1.count ConnEvent.unbind = 1 ∧
      (get_all_user_groups_run bindR searchR json_safe).1.count ConnEvent.unbind = 1 ∧
      (get_all_users_in_group_run bindR searchR json_safe).1.count ConnEvent.unbind = 1 := by
  intro bindR searchR js now
  cases bindR <;> cases searchR <;> exact ⟨rfl, rfl, rfl, rfl⟩

/-- C9: `convert_ad_timestamp` yields an absent result (`None`) on input
0; on a non-zero raw value (with `json_safe` off) it yields the datetime
at `epoch_start + raw` ticks, i.e. the 1601 epoch plus `raw / 10 ** 7`
seconds; and it is monotone over non-zero inputs. -/
theorem C9_convert_ad_timestamp :
    ∀ (json_safe : Bool) (fmt : String) (n n₁ n₂ : ℤ),
      convert_ad_timestamp (.int 0) json_safe fmt = .ok .pyNone ∧
      (n ≠ 0 → convert_ad_timestamp (.int n) false fmt = .ok (.dt (epoch_start + n))) ∧
      (n₁ ≠ 0 → n₂ ≠ 0 → n₁ ≤ n₂ →
        ∃ t₁ t₂ : ℤ, convert_ad_timestamp (.int n₁) false fmt = .ok (.dt t₁) ∧
          convert_ad_timestamp (.int n₂) false fmt = .ok (.dt t₂) ∧ t₁ ≤ t₂) := by
  intro js fmt n n₁ n₂
  refine ⟨by simp [convert_ad_timestamp, pyInt], ?_, ?_⟩
  · intro hn
    simp [convert_ad_timestamp, pyInt, hn]
  · intro h1 h2 hle
    exact ⟨epoch_start + n₁, epoch_start + n₂,
      by simp [convert_ad_timestamp, pyInt, h1],
      by simp [convert_ad_timestamp, pyInt, h2],
      add_le_add_left hle epoch_start⟩

theorem C9_witness :
    convert_ad_timestamp (.int 0) false "%x %X" = .ok .pyNone ∧
    convert_ad_timestamp (.int 5) false "%x %X" = .ok (.dt (epoch_start + 5)) ∧
    (∃ t₁ t₂ : ℤ, convert_ad_timestamp (.int 3) false "%x %X" = .ok (.dt t₁) ∧
      convert_ad_timestamp (.int 7) false "%x %X" = .ok (.dt t₂) ∧ t₁ ≤ t₂) := by
  obtain ⟨a, b, c⟩ := C9_convert_ad_timestamp false "%x %X" 5 3 7
  exact ⟨a, b (by decide), c (by decide) (by decide) (by decide)⟩

/-- C7: `_get_last_logon` returns the sentinel `-1` when the raw
timestamp is unset (its integer value is 0, which decodes to absent),
and returns the fixed marker string whenever the decoded instant lies
14 days or less before `now`, whatever `json_safe` is. -/
theorem C7_get_last_logon :
    ∀ (v : PyVal) (json_safe : Bool) (now : ℤ) (n : ℤ),
      (pyInt v = .ok 0 → get_last_logon v json_safe now = .ok (.int (-1))) ∧
      (pyInt v = .ok n → n ≠ 0 → now - (epoch_start + n) ≤ 14 * dayTicks →
        get_last_logon v json_safe now = .ok (.str "<= 14 days")) := by
  intro v js now n
  constructor
  · intro h0
    simp [get_last_logon, convert_ad_timestamp, h0]
  · intro hn hn0 hd
    have hpos : (0 : ℤ) < dayTicks := by decide
    have hdays : Int.fdiv (now - (epoch_start + n)) dayTicks ≤ 14 := by
      rw [Int.fdiv_eq_ediv _ (le_of_lt hpos)]
      calc (now - (epoch_start + n)) / dayTicks
          ≤ (14 * dayTicks) / dayTicks := Int.ediv_le_ediv hpos hd
        _ = 14 := Int.mul_ediv_cancel 14 (ne_of_gt hpos)
    simp [get_last_logon, convert_ad_timestamp, hn, hn0, hdays]

theorem C7_witness :
    get_last_logon (.str "0") true 0 = .ok (.int (-1)) ∧
    get_last_logon (.str "10000000") true (10 * dayTicks) = .ok (.str "<= 14 days") := by
  refine ⟨(C7_get_last_logon (.str "0") true 0 0).1 rfl, ?_⟩
  exact (C7_get_last_logon (.str "10000000") true (10 * dayTicks) 10000000).2
    rfl (by decide) (by decide)

/-- C2: `authenticate_user` returns the normalized user entry when the
bind and lookup succeed, returns the distinguished failure value
(Python `False`, not a raised error) exactly when the directory library
reports invalid credentials, and propagates every other error
unchanged; and none of the other operations swallows the
invalid-credentials error, whether raised at bind or at search time. -/
theorem C2_authenticate_user :
    ∀ (bindR : Except LdapErr Unit) (searchR : Except LdapErr (List (String × RawEntry)))
      (json_safe : Bool) (now : ℤ) (u : Entry) (e : PyErr),
      ((get_user_run bindR searchR json_safe now).2 = .ok u →
        authenticate_user bindR searchR json_safe now = .ok (.entry u)) ∧
      ((get_user_run bindR searchR json_safe now).2 = .error (.ldap .invalidCredentials) →
        authenticate_user bindR searchR json_safe now = .ok .failed) ∧
      (e ≠ .ldap .invalidCredentials →
        (get_user_run bindR searchR json_safe now).2 = .error e →
        authenticate_user bindR searchR json_safe now = .error e) ∧
      (bindR = .error .invalidCredentials →
        (get_user_run bindR searchR json_safe now).2 = .error (.ldap .invalidCredentials) ∧
        (get_group_run bindR searchR json_safe).2 = .error (.ldap .invalidCredentials) ∧
        (get_all_user_groups_run bindR searchR json_safe).2 =
          .error (.ldap .invalidCredentials) ∧
        (get_all_users_in_group_run bindR searchR json_safe).2 =
          .error (.ldap .invalidCredentials)) ∧
      (bindR = .ok () → searchR = .error .invalidCredentials →
        (get_user_run bindR searchR json_safe now).2 = .error (.ldap .invalidCredentials) ∧
        (get_group_run bindR searchR json_safe).2 = .error (.ldap .invalidCredentials) ∧
        (get_all_user_groups_run bindR searchR json_safe).2 =
          .error (.ldap .invalidCredentials) ∧
        (get_all_users_in_group_run bindR searchR json_safe).2 =
          .error (.ldap .invalidCredentials)) := by
  intro bindR searchR js now u e
  refine ⟨?_, ?_, ?_, ?_, ?_⟩
  · intro h
    unfold authenticate_user
    rw [h]
  · intro h
    unfold authenticate_user
    rw [h]
  · intro hne h
    unfold authenticate_user
    rw [h]
    cases e with
    | ldap le =>
      cases le with
      | invalidCredentials => exact absurd rfl hne
      | other code => rfl
    | valueError msg => rfl
    | keyError key => rfl
    | typeError => rfl
    | notModelled => rfl
  · intro hb
    subst hb
    exact ⟨rfl, rfl, rfl, rfl⟩
  · intro hb hs
    subst hb
    subst hs
    exact ⟨rfl, rfl, rfl, rfl⟩

theorem C2_witness :
    authenticate_user (.error .invalidCredentials) (.ok []) false 0 = .ok .failed ∧
    authenticate_user (.ok ()) (.error (.other "SERVER_DOWN")) false 0 =
      .error (.ldap (.other "SERVER_DOWN")) := by
  constructor
  · exact (C2_authenticate_user (.error .invalidCredentials) (.ok []) false 0 []
      PyErr.typeError).2.1 rfl
  · exact (C2_authenticate_user (.ok ()) (.error (.other "SERVER_DOWN")) false 0 []
      (.ldap (.other "SERVER_DOWN"))).2.2.1 (by decide) rfl

/-- C5: when the configuration omits `AD_BASE_DN`, `EasyAD.__init__`
derives it from the dotted domain as `dc=<part>,dc=<part>,...`; but when
the configuration does supply an `AD_BASE_DN` override (and no
`"BASE_DN"` key), the misspelt lookup `self.config["BASE_DN"]` on line
279 raises `KeyError` instead of accepting the override, contradicting
the constructor's own docstring for `AD_BASE_DN`. -/
theorem C5_base_dn :
    (∀ server domain : String,
      easyAD_init_base_dn [("AD_SERVER", .str server), ("AD_DOMAIN", .str domain)] =
        .ok [("AD_SERVER", .str server), ("AD_DOMAIN", .str domain),
          ("AD_BASE_DN", .str (derive_base_dn domain))]) ∧
    derive_base_dn "example.com" = "dc=example,dc=com" ∧
    easyAD_init_base_dn [("AD_SERVER", .str "ad.example.com"),
      ("AD_DOMAIN", .str "example.com"),
      ("AD_BASE_DN", .str "dc=custom,dc=example,dc=com")] =
      .error (.keyError "BASE_DN") := by
  exact ⟨fun server domain => rfl, rfl, rfl⟩

/-- C8: with serialization-safe mode requested, `get_user` still returns
a native datetime for `lastLogonTimestamp` older than 14 days (line 337
does not forward `json_safe`, and line 85 of `_get_last_logon` discards
the `strftime` result), while `lockoutTime` is formatted - so not every
decoded timestamp field is a human-readable string, contradicting the
functions' own docstrings. -/
theorem C8_json_safe_last_logon :
    get_user_from_results
      [("CN=bob,DC=example,DC=com", .dict
        [("lastLogonTimestamp", [.utf8 "10000000"]),
         ("lockoutTime", [.utf8 "10000000"])])]
      true (20 * dayTicks) =
    .ok [("lastLogonTimestamp", .dt 10000000),
         ("lockoutTime", .fmtTime "%x %X" 10000000)] := by
  rfl

/-- C4 counterexample: the claim requires `@<domain>` to be appended
whenever the stripped username has no `"@"` and no case-insensitive
`cn=` PREFIX. For `"acn=admin"` (no `"@"`, no `cn=` prefix) the claim
therefore demands `"acn=admin@example.com"`, but line 166 tests
substring containment, finds `"cn="` inside, and binds as `"acn=admin"`
unchanged. -/
theorem C4_counterexample :
    bind_identity (some [("username", .str "acn=admin"), ("password", .str "pw")])
      [("AD_DOMAIN", .str "example.com")] = .ok ("acn=admin", .str "pw") ∧
    spec_normalize_bind_username "acn=admin" "example.com" = "acn=admin@example.com" ∧
    ("acn=admin" : String) ≠ "acn=admin@example.com" := by
  exact ⟨rfl, rfl, by decide⟩

/-- C4 (amended): for every username, only the part after the last
backslash is kept; if that part contains no `"@"` and does not contain
`"cn="` case-insensitively ANYWHERE (the code tests substring
containment, not a prefix), `@<configured domain>` is appended to form
a UPN; in particular `DOMAIN\bob` with domain example.com binds as
`bob@example.com`, while `cn=admin,dc=example,dc=com` and
`bob@example.com` pass through unchanged. -/
theorem C4_bind_identity_normalization :
    ∀ (u pw d : String),
      (afterLastBackslash u).data <:+ u.data ∧
      '\\' ∉ (afterLastBackslash u).data ∧
      ('\\' ∈ u.data → '\\' :: (afterLastBackslash u).data <:+ u.data) ∧
      ('\\' ∉ u.data → afterLastBackslash u = u) ∧
      bind_identity (some [("username", .str u), ("password", .str pw)])
        [("AD_DOMAIN", .str d)] =
        .ok ((if ¬ ("@".data <:+: (afterLastBackslash u).data) ∧
            ¬ ("cn=".data <:+: (pyLower (afterLastBackslash u)).data)
          then afterLastBackslash u ++ "@" ++ d else afterLastBackslash u), .str pw) ∧
      bind_identity (some [("username", .str "DOMAIN\\bob"), ("password", .str pw)])
        [("AD_DOMAIN", .str "example.com")] = .ok ("bob@example.com", .str pw) ∧
      bind_identity (some [("username", .str "cn=admin,dc=example,dc=com"),
        ("password", .str pw)]) [("AD_DOMAIN", .str "example.com")] =
        .ok ("cn=admin,dc=example,dc=com", .str pw) ∧
      bind_identity (some [("username", .str "bob@example.com"), ("password", .str pw)])
        [("AD_DOMAIN", .str "example.com")] = .ok ("bob@example.com", .str pw) := by
  intro u pw d
  refine ⟨afterLastBackslash_suffix u, afterLastBackslash_no_bs u,
    afterLastBackslash_of_mem u, afterLastBackslash_of_not_mem u, ?_, rfl, rfl, rfl⟩
  rw [bind_identity_eval]
  by_cases hA : ("@".data <:+: (afterLastBackslash u).data) <;>
    by_cases hB : ("cn=".data <:+: (pyLower (afterLastBackslash u)).data) <;>
      simp [pyIn, hA, hB]

theorem C4_witness :
    ('\\' :: (afterLastBackslash "DOMAIN\\bob").data <:+ "DOMAIN\\bob".data) ∧
    bind_identity (some [("username", .str "DOMAIN\\bob"), ("password", .str "pw")])
      [("AD_DOMAIN", .str "example.com")] = .ok ("bob@example.com", .str "pw") := by
  obtain ⟨_, _, h3, _, _, h6, _, _⟩ :=
    C4_bind_identity_normalization "DOMAIN\\bob" "pw" "example.com"
  exact ⟨h3 (by decide), h6⟩

theorem bind_identity_no_valueError_of_resolve_ok {credentials : Option Config}
    {config creds : Config}
    (h : resolve_bind_credentials credentials config = .ok creds) :
    ∀ msg, bind_identity credentials config ≠ .error (.valueError msg) := by
  intro msg hc
  unfold bind_identity at hc
  rw [h] at hc
  simp only [Except.bind, bind] at hc
  cases h1 : List.lookup "username" creds with
  | none =>
    rw [h1] at hc
    simp [Except.bind, bind] at hc
  | some uv =>
    rw [h1] at hc
    cases uv with
    | str s =>
      simp only [Except.bind, bind] at hc
      by_cases hcond : (!(pyIn "@" (afterLastBackslash s)) &&
          !(pyIn "cn=" (pyLower (afterLastBackslash s)))) = true
      · rw [if_pos hcond] at hc
        cases hd : List.lookup "AD_DOMAIN" config with
        | none =>
          rw [hd] at hc
          simp [Except.bind, bind] at hc
        | some dv =>
          rw [hd] at hc
          cases dv with
          | str d =>
            simp only [Except.bind, bind] at hc
            cases h2 : List.lookup "password" creds with
            | none =>
              rw [h2] at hc
              simp [Except.bind, bind] at hc
            | some pv =>
              rw [h2] at hc
              simp [Except.bind, bind] at hc
          | bytes b => simp [Except.bind, bind] at hc
          | int n => simp [Except.bind, bind] at hc
          | bool b => simp [Except.bind, bind] at hc
          | dt t => simp [Except.bind, bind] at hc
          | fmtTime f t => simp [Except.bind, bind] at hc
          | pyNone => simp [Except.bind, bind] at hc
          | list l => simp [Except.bind, bind] at hc
      · rw [if_neg hcond] at hc
        cases h2 : List.lookup "password" creds with
        | none =>
          rw [h2] at hc
          simp [Except.bind, bind] at hc
        | some pv =>
          rw [h2] at hc
          simp [Except.bind, bind] at hc
    | bytes b => simp [Except.bind, bind] at hc
    | int n => simp [Except.bind, bind] at hc
    | bool b => simp [Except.bind, bind] at hc
    | dt t => simp [Except.bind, bind] at hc
    | fmtTime f t => simp [Except.bind, bind] at hc
    | pyNone => simp [Except.bind, bind] at hc
    | list l => simp [Except.bind, bind] at hc

theorem fallback_credentials_ok {config : Config} {uv pv : PyVal}
    (hu : List.lookup "AD_BIND_USERNAME" config = some uv)
    (hp : List.lookup "AD_BIND_PASSWORD" config = some pv)
    (huv : uv ≠ .pyNone) (hpv : pv ≠ .pyNone) :
    fallback_credentials config = .ok [("username", uv), ("password", pv)] := by
  cases uv <;> try exact absurd rfl huv
  all_goals cases pv <;> try exact absurd rfl hpv
  all_goals
    unfold fallback_credentials
    rw [hu, hp]

/-- C10: a credentials dictionary lacking the `"username"` key or the
`"password"` key is ignored entirely - `bind` falls back to the
configured defaults exactly as if no credentials were supplied - and
the configuration `ValueError` is raised precisely when those defaults
are themselves missing or `None`. -/
theorem C10_partial_credentials :
    ∀ (c config : Config),
      (((List.lookup "username" c).isNone || (List.lookup "password" c).isNone) = true →
        bind_identity (some c) config = bind_identity none config) ∧
      ((∃ msg, bind_identity none config = .error (.valueError msg)) ↔
        (List.lookup "AD_BIND_USERNAME" config = none ∨
         List.lookup "AD_BIND_USERNAME" config = some .pyNone ∨
         List.lookup "AD_BIND_PASSWORD" config = none ∨
         List.lookup "AD_BIND_PASSWORD" config = some .pyNone)) := by
  intro c config
  constructor
  · intro h
    unfold bind_identity
    have hres : resolve_bind_credentials (some c) config =
        resolve_bind_credentials none config := by
      unfold resolve_bind_credentials
      simp [h]
    rw [hres]
  · constructor
    · rintro ⟨msg, hmsg⟩
      cases hu : List.lookup "AD_BIND_USERNAME" config with
      | none => exact Or.inl rfl
      | some uv =>
        by_cases huv : uv = .pyNone
        · subst huv
          exact Or.inr (Or.inl rfl)
        · cases hp : List.lookup "AD_BIND_PASSWORD" config with
          | none => exact Or.inr (Or.inr (Or.inl rfl))
          | some pv =>
            by_cases hpv : pv = .pyNone
            · subst hpv
              exact Or.inr (Or.inr (Or.inr rfl))
            · have hres : resolve_bind_credentials none config =
                  .ok [("username", uv), ("password", pv)] := by
                unfold resolve_bind_credentials
                exact fallback_credentials_ok hu hp huv hpv
              exact absurd hmsg (bind_identity_no_valueError_of_resolve_ok hres msg)
    · rintro (h | h | h | h)
      · exact ⟨_, by
          unfold bind_identity resolve_bind_credentials fallback_credentials
          rw [h]
          rfl⟩
      · exact ⟨_, by
          unfold bind_identity resolve_bind_credentials fallback_credentials
          rw [h]
          rfl⟩
      · cases hu : List.lookup "AD_BIND_USERNAME" config with
        | none => exact ⟨_, by
            unfold bind_identity resolve_bind_credentials fallback_credentials
            rw [hu]
            rfl⟩
        | some uv =>
          cases uv <;> exact ⟨_, by
            unfold bind_identity resolve_bind_credentials fallback_credentials
            rw [hu, h]
            rfl⟩
      · cases hu : List.lookup "AD_BIND_USERNAME" config with
        | none => exact ⟨_, by
            unfold bind_identity resolve_bind_credentials fallback_credentials
            rw [hu]
            rfl⟩
        | some uv =>
          cases uv <;> exact ⟨_, by
            unfold bind_identity resolve_bind_credentials fallback_credentials
            rw [hu, h]
            rfl⟩

theorem C10_witness :
    bind_identity (some [("username", .str "alice")])
      [("AD_BIND_USERNAME", .str "svc"), ("AD_BIND_PASSWORD", .str "secret"),
       ("AD_DOMAIN", .str "example.com")] =
    bind_identity none
      [("AD_BIND_USERNAME", .str "svc"), ("AD_BIND_PASSWORD", .str "secret"),
       ("AD_DOMAIN", .str "example.com")] ∧
    ((∃ msg, bind_identity none
        [("AD_BIND_USERNAME", .str "svc"), ("AD_BIND_PASSWORD", .str "secret"),
         ("AD_DOMAIN", .str "example.com")] = .error (.valueError msg)) ↔
      (List.lookup "AD_BIND_USERNAME"
          [("AD_BIND_USERNAME", PyVal.str "svc"), ("AD_BIND_PASSWORD", PyVal.str "secret"),
           ("AD_DOMAIN", PyVal.str "example.com")] = none ∨
       List.lookup "AD_BIND_USERNAME"
          [("AD_BIND_USERNAME", PyVal.str "svc"), ("AD_BIND_PASSWORD", PyVal.str "secret"),
           ("AD_DOMAIN", PyVal.str "example.com")] = some .pyNone ∨
       List.lookup "AD_BIND_PASSWORD"
          [("AD_BIND_USERNAME", PyVal.str "svc"), ("AD_BIND_PASSWORD", PyVal.str "secret"),
           ("AD_DOMAIN", PyVal.str "example.com")] = none ∨
       List.lookup "AD_BIND_PASSWORD"
          [("AD_BIND_USERNAME", PyVal.str "svc"), ("AD_BIND_PASSWORD", PyVal.str "secret"),
           ("AD_DOMAIN", PyVal.str "example.com")] = some .pyNone)) := by
  obtain ⟨h1, h2⟩ := C10_partial_credentials [("username", .str "alice")]
    [("AD_BIND_USERNAME", .str "svc"), ("AD_BIND_PASSWORD", .str "secret"),
     ("AD_DOMAIN", .str "example.com")]
  exact ⟨h1 rfl, h2⟩

theorem decode_cons_dict (dn : String) (attrs : List (String × List RawBytes))
    (rest : List (String × RawEntry)) (js : Bool) :
    decode_ldap_results ((dn, RawEntry.dict attrs) :: rest) js =
      (attrs.map fun kv => (kv.1, decode_attribute kv.2 js)) ::
        decode_ldap_results rest js := by
  simp [decode_ldap_results]

theorem decode_cons_nonDict (dn : String) (rest : List (String × RawEntry)) (js : Bool) :
    decode_ldap_results ((dn, RawEntry.nonDict) :: rest) js =
      decode_ldap_results rest js := by
  simp [decode_ldap_results]

/-- C6: `decode_ldap_results` keeps exactly the raw entries whose
attribute map is a genuine dict (referral metadata is dropped),
preserves the input order, collapses an attribute with exactly one
decoded value to a bare scalar, and keeps an attribute with any other
number of values as an ordered sequence of the same length with the
i-th decoded value in the i-th place. -/
theorem C6_decode_ldap_results :
    ∀ (results : List (String × RawEntry)) (json_safe : Bool),
      (decode_ldap_results results json_safe).length =
        (results.countP fun de =>
          match de.2 with | .dict _ => true | .nonDict => false) ∧
      decode_ldap_results results json_safe =
        decode_ldap_results (results.filter fun de =>
          match de.2 with | .dict _ => true | .nonDict => false) json_safe ∧
      (∀ dn attrs rest, decode_ldap_results ((dn, RawEntry.dict attrs) :: rest) json_safe =
        (attrs.map fun kv => (kv.1, decode_attribute kv.2 json_safe)) ::
          decode_ldap_results rest json_safe) ∧
      (∀ dn rest, decode_ldap_results ((dn, RawEntry.nonDict) :: rest) json_safe =
        decode_ldap_results rest json_safe) ∧
      (∀ b : RawBytes, decode_attribute [b] json_safe = decode_value b json_safe) ∧
      (∀ vs : List RawBytes, vs.length ≠ 1 →
        decode_attribute vs json_safe = .list (vs.map fun b => decode_value b json_safe)) ∧
      (∀ vs : List RawBytes,
        (vs.map fun b => decode_value b json_safe).length = vs.length ∧
        ∀ i (hi : i < vs.length),
          (vs.map fun b => decode_value b json_safe).get ⟨i, by simpa using hi⟩ =
            decode_value (vs.get ⟨i, hi⟩) json_safe) := by
  intro results js
  refine ⟨?_, ?_, fun dn attrs rest => decode_cons_dict dn attrs rest js,
    fun dn rest => decode_cons_nonDict dn rest js, fun b => rfl, ?_, ?_⟩
  · induction results with
    | nil => rfl
    | cons de rest ih =>
      obtain ⟨dn, re⟩ := de
      cases re with
      | dict attrs => simp [decode_cons_dict, List.countP_cons, ih]
      | nonDict => simp [decode_cons_nonDict, List.countP_cons, ih]
  · induction results with
    | nil => rfl
    | cons de rest ih =>
      obtain ⟨dn, re⟩ := de
      cases re with
      | dict attrs => simp [decode_cons_dict, List.filter_cons, ih]
      | nonDict => simp [decode_cons_nonDict, List.filter_cons, ih]
  · intro vs hlen
    match vs with
    | [] => rfl
    | [b] => exact absurd rfl hlen
    | b1 :: b2 :: t => rfl
  · intro vs
    refine ⟨by simp, ?_⟩
    intro i hi
    simp

theorem C6_witness :
    ([RawBytes.utf8 "a", RawBytes.binary "YmIN"].length ≠ 1) ∧
    decode_attribute [RawBytes.utf8 "a", RawBytes.binary "YmIN"] false =
      .list [PyVal.str "a", PyVal.bytes (.binary "YmIN")] ∧
    (1 < [RawBytes.utf8 "a", RawBytes.binary "YmIN"].length) ∧
    ([RawBytes.utf8 "a", RawBytes.binary "YmIN"].map
        (fun b => decode_value b false)).get ⟨1, by decide⟩ =
      decode_value ([RawBytes.utf8 "a", RawBytes.binary "YmIN"].get ⟨1, by decide⟩) false := by
  obtain ⟨_, _, _, _, _, h6, h7⟩ := C6_decode_ldap_results [] false
  refine ⟨by decide, ?_, by decide, ?_⟩
  · rw [h6 [RawBytes.utf8 "a", RawBytes.binary "YmIN"] (by decide)]
    rfl
  · exact (h7 [RawBytes.utf8 "a", RawBytes.binary "YmIN"]).2 1 (by decide)

/-- C1: for every identifier (i.e. for every possible search result
list), `get_user` and `get_group` fail with the not-found `ValueError`
when the search matches zero entries, fail with the ambiguous-result
`ValueError` when it matches two or more, and on exactly one match
return that entry normalized, with the membership/visibility list
attributes (`memberOf`, `showInAddressBook` for users; `member` for
groups) sorted in case-insensitive ascending order (a permutation of
the decoded values, pairwise ordered by `ciLe`). -/
theorem C1_get_unique_normalized :
    ∀ (results : List (String × RawEntry)) (json_safe : Bool) (now : ℤ),
      (decode_ldap_results results json_safe = [] →
        get_user_from_results results json_safe now =
          .error (.valueError "No such user") ∧
        get_group_from_results results json_safe =
          .error (.valueError "No such group")) ∧
      (2 ≤ (decode_ldap_results results json_safe).length →
        get_user_from_results results json_safe now =
          .error (.valueError "The query returned more than one result") ∧
        get_group_from_results results json_safe =
          .error (.valueError "The query returned more than one result")) ∧
      (∀ u, decode_ldap_results results json_safe = [u] →
        (user_wellformed u = true →
          ∃ e, get_user_from_results results json_safe now = .ok e ∧
            (∀ ss : List String,
              List.lookup "memberOf" u = some (.list (ss.map PyVal.str)) →
              ∃ ts : List String, List.lookup "memberOf" e =
                  some (.list (ts.map PyVal.str)) ∧ ts.Perm ss ∧ ciSorted ts) ∧
            (∀ ss : List String,
              List.lookup "showInAddressBook" u = some (.list (ss.map PyVal.str)) →
              ∃ ts : List String, List.lookup "showInAddressBook" e =
                  some (.list (ts.map PyVal.str)) ∧ ts.Perm ss ∧ ciSorted ts)) ∧
        (attrOkStrList u "member" = true →
          ∃ g, get_group_from_results results json_safe = .ok g ∧
            (∀ ss : List String,
              List.lookup "member" u = some (.list (ss.map PyVal.str)) →
              ∃ ts : List String, List.lookup "member" g =
                  some (.list (ts.map PyVal.str)) ∧ ts.Perm ss ∧ ciSorted ts))) := by
  intro results js now
  refine ⟨?_, ?_, ?_⟩
  · intro h
    constructor
    · unfold get_user_from_results
      rw [h]
    · unfold get_group_from_results
      rw [h]
  · intro h
    cases hd : decode_ldap_results results js with
    | nil =>
      rw [hd] at h
      simp at h
    | cons a l =>
      cases l with
      | nil =>
        rw [hd] at h
        simp at h
      | cons b t =>
        constructor
        · unfold get_user_from_results
          rw [hd]
        · unfold get_group_from_results
          rw [hd]
  · intro u hu
    constructor
    · intro hwf
      obtain ⟨e, he, hm, hs⟩ := get_user_post_spec u js now hwf
      refine ⟨e, ?_, ?_, ?_⟩
      · unfold get_user_from_results
        rw [hu]
        exact he
      · intro ss hss
        exact ⟨sortCI ss, hm ss hss, sortCI_perm ss, sortCI_sorted ss⟩
      · intro ss hss
        exact ⟨sortCI ss, hs ss hss, sortCI_perm ss, sortCI_sorted ss⟩
    · intro hmem
      have hOk : ∀ v, List.lookup "member" u = some v → ∃ w, pySortedCI v = .ok w := by
        intro v hv
        obtain ⟨ss, rfl⟩ := attrOkStrList_elim hmem v hv
        exact ⟨_, pySortedCI_strList ss⟩
      obtain ⟨g, hg, hpg, hvg⟩ := updateAttrM_spec u "member" pySortedCI hOk
      refine ⟨g, ?_, ?_⟩
      · unfold get_group_from_results
        rw [hu]
        exact hg
      · intro ss hss
        obtain ⟨w, hw, hkg⟩ := hvg _ hss
        rw [pySortedCI_strList] at hw
        cases hw
        exact ⟨sortCI ss, hkg, sortCI_perm ss, sortCI_sorted ss⟩

theorem C1_witness :
    decode_ldap_results
        [("cn=g", .dict [("memberOf", [.utf8 "B", .utf8 "a"]),
          ("member", [.utf8 "D", .utf8 "c"])])] false =
      [[("memberOf", PyVal.list [PyVal.str "B", PyVal.str "a"]),
        ("member", PyVal.list [PyVal.str "D", PyVal.str "c"])]] ∧
    user_wellformed [("memberOf", PyVal.list [PyVal.str "B", PyVal.str "a"]),
      ("member", PyVal.list [PyVal.str "D", PyVal.str "c"])] = true ∧
    attrOkStrList [("memberOf", PyVal.list [PyVal.str "B", PyVal.str "a"]),
      ("member", PyVal.list [PyVal.str "D", PyVal.str "c"])] "member" = true ∧
    (∃ e, get_user_from_results
        [("cn=g", .dict [("memberOf", [.utf8 "B", .utf8 "a"]),
          ("member", [.utf8 "D", .utf8 "c"])])] false 0 = .ok e ∧
      (∀ ss : List String,
        List.lookup "memberOf" [("memberOf", PyVal.list [PyVal.str "B", PyVal.str "a"]),
          ("member", PyVal.list [PyVal.str "D", PyVal.str "c"])] =
            some (.list (ss.map PyVal.str)) →
        ∃ ts : List String, List.lookup "memberOf" e =
            some (.list (ts.map PyVal.str)) ∧ ts.Perm ss ∧ ciSorted ts) ∧
      (∀ ss : List String,
        List.lookup "showInAddressBook"
          [("memberOf", PyVal.list [PyVal.str "B", PyVal.str "a"]),
           ("member", PyVal.list [PyVal.str "D", PyVal.str "c"])] =
            some (.list (ss.map PyVal.str)) →
        ∃ ts : List String, List.lookup "showInAddressBook" e =
            some (.list (ts.map PyVal.str)) ∧ ts.Perm ss ∧ ciSorted ts)) ∧
    (∃ g, get_group_from_results
        [("cn=g", .dict [("memberOf", [.utf8 "B", .utf8 "a"]),
          ("member", [.utf8 "D", .utf8 "c"])])] false = .ok g ∧
      (∀ ss : List String,
        List.lookup "member" [("memberOf", PyVal.list [PyVal.str "B", PyVal.str "a"]),
          ("member", PyVal.list [PyVal.str "D", PyVal.str "c"])] =
            some (.list (ss.map PyVal.str)) →
        ∃ ts : List String, List.lookup "member" g =
            some (.list (ts.map PyVal.str)) ∧ ts.Perm ss ∧ ciSorted ts)) := by
  have h := (C1_get_unique_normalized
    [("cn=g", .dict [("memberOf", [.utf8 "B", .utf8 "a"]),
      ("member", [.utf8 "D", .utf8 "c"])])] false 0).2.2
    [("memberOf", PyVal.list [PyVal.str "B", PyVal.str "a"]),
     ("member", PyVal.list [PyVal.str "D", PyVal.str "c"])] rfl
  exact ⟨rfl, rfl, rfl, h.1 rfl, h.2 rfl⟩
